import Mathlib

/-!
Shallow embedding of `src/keigo_app.py`, a keigo (Japanese honorific speech)
classifier.  The source applies compiled regular expressions (Python `re`)
from four category rule lists to input text, counts the matches per category,
and derives a boolean verdict; a table layer lifts this row-wise and splits
the result into an "all rows" and a "keigo only" view.

The embedding models the subset of Python `re` that the program relies on:
a regex AST with literals, character classes (including ranges and the
whitespace class), concatenation, left-biased alternation, greedy/lazy
repetition and numbered capture groups; a backtracking matcher whose result
order reproduces Python's leftmost, greedy, left-biased choice; `findall`
scanning semantics (non-overlapping, advancing one position after an empty
match); and a pattern-text parser used for `re.compile`, so that invalid
pattern text is rejected with an error as in the source.  All recursions are
fuel-based structural recursions so every definition evaluates by `decide`.
-/

namespace KeigoApp

/-- Whitespace as recognised by Python `str.strip` / the regex whitespace
class on unicode strings (covers the characters relevant to the app,
including the ideographic space U+3000 used in the built-in patterns). -/
def isPySpace (c : Char) : Bool :=
  c = ' ' || c = '\t' || c = '\n' || c = '\r' || c = '\x0b' || c = '\x0c' ||
  c = '\u0085' || c = ' ' || c = ' ' ||
  (0x2000 ≤ c.toNat && c.toNat ≤ 0x200a) ||
  c = ' ' || c = ' ' || c = ' ' || c = ' ' || c = '　'

/-- Python `s.strip()`. -/
def pyStrip (s : String) : String :=
  String.mk (((s.toList.dropWhile isPySpace).reverse.dropWhile isPySpace).reverse)

/-- Python truthiness of `s.strip()` being empty: `not text.strip()`. -/
def pyBlank (s : String) : Bool :=
  s.toList.all isPySpace

/-- One element of a regex character class. -/
inductive ClsItem where
  | single (c : Char)
  | range (lo hi : Char)
  | spaceClass
  | digitClass
  | wordClass
deriving DecidableEq, Repr

/-- Regex AST for the `re` subset the program uses.  `star` carries a
laziness flag; `group` is a numbered capture group. -/
inductive Regex where
  | eps
  | char (c : Char)
  | cls (neg : Bool) (items : List ClsItem)
  | cat (r1 r2 : Regex)
  | alt (r1 r2 : Regex)
  | star (lazyq : Bool) (r : Regex)
  | group (idx : Nat) (r : Regex)
deriving DecidableEq, Repr

def clsItemMatch (c : Char) : ClsItem → Bool
  | .single a => c = a
  | .range lo hi => lo.toNat ≤ c.toNat && c.toNat ≤ hi.toNat
  | .spaceClass => isPySpace c
  | .digitClass => c.isDigit
  | .wordClass => c.isAlphanum || c = '_' || 0x80 ≤ c.toNat

def clsMatch (neg : Bool) (items : List ClsItem) (c : Char) : Bool :=
  if neg then !(items.any (clsItemMatch c)) else items.any (clsItemMatch c)

/-- Capture state: numbered group → last captured substring (most recent
binding first, as Python keeps the last successful capture of a group). -/
abbrev Caps := List (Nat × String)

def capGet (caps : Caps) (i : Nat) : String :=
  ((caps.find? (fun p => p.1 = i)).map Prod.snd).getD ""

def setCap (i : Nat) (v : String) (caps : Caps) : Caps :=
  (i, v) :: caps

/-- Backtracking matcher, anchored at the start of `s`.  Returns every way
the regex can match a prefix of `s`, as `(remaining suffix, captures)`, in
Python's backtracking preference order (first element = the match Python
commits to): alternation is left-biased, greedy repetition tries longer
first, lazy repetition shorter first.  A repetition iteration must consume
at least one character, mirroring the `re` engine's empty-loop protection.
`fuel` bounds the recursion depth; callers pass enough fuel for the search
to complete. -/
def matchR : Regex → List Char → Caps → Nat → List (List Char × Caps)
  | _, _, _, 0 => []
  | .eps, s, caps, _ + 1 => [(s, caps)]
  | .char c, s, caps, _ + 1 =>
    match s with
    | [] => []
    | a :: rest => if a = c then [(rest, caps)] else []
  | .cls neg items, s, caps, _ + 1 =>
    match s with
    | [] => []
    | a :: rest => if clsMatch neg items a then [(rest, caps)] else []
  | .cat r1 r2, s, caps, fuel + 1 =>
    (matchR r1 s caps fuel).flatMap (fun p => matchR r2 p.1 p.2 fuel)
  | .alt r1 r2, s, caps, fuel + 1 =>
    matchR r1 s caps fuel ++ matchR r2 s caps fuel
  | .star lq r, s, caps, fuel + 1 =>
    let iter :=
      ((matchR r s caps fuel).filter (fun p => p.1.length < s.length)).flatMap
        (fun p => matchR (.star lq r) p.1 p.2 fuel)
    if lq then (s, caps) :: iter else iter ++ [(s, caps)]
  | .group i r, s, caps, fuel + 1 =>
    (matchR r s caps fuel).map
      (fun p => (p.1, setCap i (String.mk (s.take (s.length - p.1.length))) p.2))

def rsize : Regex → Nat
  | .eps => 1
  | .char _ => 1
  | .cls _ _ => 1
  | .cat a b => rsize a + rsize b + 1
  | .alt a b => rsize a + rsize b + 1
  | .star _ r => rsize r + 1
  | .group _ r => rsize r + 1

/-- Enough recursion depth for `matchR` on this regex and input. -/
def matchFuel (r : Regex) (s : List Char) : Nat :=
  (rsize r + 1) * (s.length + 2)

/-- The match Python's engine commits to at this position, if any:
`(consumed length, captures)`. -/
def firstMatchAt (r : Regex) (s : List Char) : Option (Nat × Caps) :=
  match matchR r s [] (matchFuel r s) with
  | [] => none
  | p :: _ => some (s.length - p.1.length, p.2)

/-- Python `re.findall` scanning: try each position left to right; record the
committed match and resume after it, advancing one position after an empty
match (or after a failure). -/
def scanAux (r : Regex) : Nat → List Char → List (String × Caps)
  | 0, _ => []
  | fuel + 1, s =>
    match firstMatchAt r s with
    | none =>
      match s with
      | [] => []
      | _ :: rest => scanAux r fuel rest
    | some (len, caps) =>
      let hit := String.mk (s.take len)
      if len = 0 then
        (hit, caps) ::
          (match s with
           | [] => []
           | _ :: rest => scanAux r fuel rest)
      else (hit, caps) :: scanAux r fuel (s.drop len)

/-- All matches of `r` in `s` as `(full matched span, captures)`, in
occurrence order. -/
def findallRaw (r : Regex) (s : String) : List (String × Caps) :=
  scanAux r (s.length + 1) s.toList

/-- Number of capture groups of a pattern (`pattern.groups` in Python; the
parser numbers groups consecutively from 1). -/
def numGroups : Regex → Nat
  | .eps => 0
  | .char _ => 0
  | .cls _ _ => 0
  | .cat a b => max (numGroups a) (numGroups b)
  | .alt a b => max (numGroups a) (numGroups b)
  | .star _ r => numGroups r
  | .group i r => max i (numGroups r)

/-- One element of Python `pattern.findall(s)`: a plain string when the
pattern has at most one group, a tuple of group captures otherwise. -/
inductive FindItem where
  | str (s : String)
  | tup (gs : List String)
deriving DecidableEq, Repr

/-- Python `pattern.findall(s)`: full span if the pattern has no groups,
the single group's capture if it has exactly one, else the tuple of all
group captures (unmatched groups contribute the empty string). -/
def re_findall (r : Regex) (s : String) : List FindItem :=
  let n := numGroups r
  (findallRaw r s).map (fun m =>
    if n = 0 then .str m.1
    else if n = 1 then .str (capGet m.2 1)
    else .tup ((List.range n).map (fun i => capGet m.2 (i + 1))))

/-- Source expression `f if isinstance(f, str) else "".join(f)` from `_hits`. -/
def joinItem : FindItem → String
  | .str s => s
  | .tup gs => String.join gs

/-- Source function `_hits(patterns, s)` (src/keigo_app.py lines 44-50): run `findall` for
every rule in order and collect the reported hit strings. -/
def _hits (patterns : List Regex) (s : String) : List String :=
  patterns.flatMap (fun pat => (re_findall pat s).map joinItem)

/-- Parse one character-class element: a literal character (eligible as a
range endpoint) or a class escape. -/
def clsFirst : List Char → Except String (Sum Char ClsItem × List Char)
  | [] => .error "unterminated character set"
  | '\\' :: e :: rest =>
    if e = 's' then .ok (.inr .spaceClass, rest)
    else if e = 'd' then .ok (.inr .digitClass, rest)
    else if e = 'w' then .ok (.inr .wordClass, rest)
    else if e.isAlphanum then .error "bad escape"
    else .ok (.inl e, rest)
  | '\\' :: [] => .error "bad escape at end of pattern"
  | c :: rest => .ok (.inl c, rest)

/-- Parse the items of a character class up to the closing bracket. -/
def parseCls : Nat → List Char → Except String (List ClsItem × List Char)
  | 0, _ => .error "internal fuel exhausted"
  | fuel + 1, s =>
    match s with
    | ']' :: rest => .ok ([], rest)
    | _ => do
      let (e1, rest1) ← clsFirst s
      match e1, rest1 with
      | .inl c1, '-' :: (']' :: rest3) =>
        .ok ([ClsItem.single c1, ClsItem.single '-'], rest3)
      | .inl c1, '-' :: rest2 => do
        let (e2, rest3) ← clsFirst rest2
        match e2 with
        | .inl c2 =>
          if c1.toNat ≤ c2.toNat then do
            let (items, rest4) ← parseCls fuel rest3
            .ok (ClsItem.range c1 c2 :: items, rest4)
          else .error "bad character range"
        | .inr _ => .error "bad character range"
      | _, _ => do
        let it := match e1 with
          | .inl c => ClsItem.single c
          | .inr i => i
        let (items, rest2) ← parseCls fuel rest1
        .ok (it :: items, rest2)

def takeDigits (s : List Char) : List Char × List Char :=
  (s.takeWhile Char.isDigit, s.dropWhile Char.isDigit)

def digitsToNat (l : List Char) : Nat :=
  l.foldl (fun a c => a * 10 + (c.toNat - 48)) 0

/-- Try to read a `\x7bm,n\x7d` quantifier body after the opening brace.
`none` means the brace does not form a quantifier and is a literal, as in
Python. -/
def parseBrace (s : List Char) : Option (Nat × Option Nat × List Char) :=
  let (d1, r1) := takeDigits s
  match r1 with
  | '}' :: rest =>
    if d1.isEmpty then none
    else some (digitsToNat d1, some (digitsToNat d1), rest)
  | ',' :: r2 =>
    let (d2, r3) := takeDigits r2
    match r3 with
    | '}' :: rest =>
      if d1.isEmpty && d2.isEmpty then none
      else some (digitsToNat d1, if d2.isEmpty then none else some (digitsToNat d2), rest)
    | _ => none
  | _ => none

/-- Greedy or lazy `r?`. -/
def optR (lazyq : Bool) (r : Regex) : Regex :=
  if lazyq then .alt .eps r else .alt r .eps

/-- Exactly `n` mandatory copies of `r`. -/
def catN : Nat → Regex → Regex
  | 0, _ => .eps
  | n + 1, r => .cat r (catN n r)

/-- Up to `n` further copies of `r`, greedily preferring more. -/
def optUpTo : Nat → Regex → Regex
  | 0, _ => .eps
  | n + 1, r => .alt (.cat r (optUpTo n r)) .eps

/-- Build a bounded/unbounded repetition node from a brace quantifier. -/
def repR (lo : Nat) (hi : Option Nat) (r : Regex) : Except String Regex :=
  match hi with
  | none => .ok (.cat (catN lo r) (.star false r))
  | some h =>
    if h < lo then .error "min repeat greater than max repeat"
    else .ok (.cat (catN lo r) (optUpTo (h - lo) r))

/-- A quantifier directly after a quantifier is an error in Python
("multiple repeat"). -/
def checkNoRepeat (s : List Char) : Except String Unit :=
  match s with
  | '*' :: _ => .error "multiple repeat"
  | '+' :: _ => .error "multiple repeat"
  | '?' :: _ => .error "multiple repeat"
  | '{' :: rest =>
    match parseBrace rest with
    | some _ => .error "multiple repeat"
    | none => .ok ()
  | _ => .ok ()

/-- Parser phase: alternation level, sequence level, single quantified item. -/
inductive PMode where
  | palt
  | pseq
  | pitem
deriving Repr

/-- Recursive-descent parser for the supported `re` subset, threading the
next capture-group number (Python numbers groups by order of the opening
parenthesis).  Returns the parsed regex, the unconsumed input and the
updated group counter. -/
def parseF : Nat → PMode → List Char → Nat → Except String (Regex × List Char × Nat)
  | 0, _, _, _ => .error "internal fuel exhausted"
  | fuel + 1, .palt, s, g => do
    let (r1, s1, g1) ← parseF fuel .pseq s g
    match s1 with
    | '|' :: rest => do
      let (r2, s2, g2) ← parseF fuel .palt rest g1
      .ok (.alt r1 r2, s2, g2)
    | _ => .ok (r1, s1, g1)
  | fuel + 1, .pseq, s, g =>
    match s with
    | [] => .ok (.eps, [], g)
    | ')' :: _ => .ok (.eps, s, g)
    | '|' :: _ => .ok (.eps, s, g)
    | _ => do
      let (r1, s1, g1) ← parseF fuel .pitem s g
      let (r2, s2, g2) ← parseF fuel .pseq s1 g1
      .ok (.cat r1 r2, s2, g2)
  | fuel + 1, .pitem, s, g => do
    let (r1, s1, g1) ←
      (match s with
      | [] => .error "nothing to repeat"
      | '(' :: '?' :: ':' :: rest => do
        let (r, s2, g2) ← parseF fuel .palt rest g
        match s2 with
        | ')' :: rest2 => .ok (r, rest2, g2)
        | _ => .error "missing ), unterminated subpattern"
      | '(' :: '?' :: _ => .error "unsupported extension"
      | '(' :: rest => do
        let (r, s2, g2) ← parseF fuel .palt rest (g + 1)
        match s2 with
        | ')' :: rest2 => .ok (Regex.group (g + 1) r, rest2, g2)
        | _ => .error "missing ), unterminated subpattern"
      | '[' :: rest => do
        let (neg, rest1) :=
          match rest with
          | '^' :: r2 => (true, r2)
          | _ => (false, rest)
        let (init, rest2) :=
          match rest1 with
          | ']' :: r2 => ([ClsItem.single ']'], r2)
          | _ => (([] : List ClsItem), rest1)
        let (items, rest3) ← parseCls fuel rest2
        .ok (Regex.cls neg (init ++ items), rest3, g)
      | '\\' :: e :: rest =>
        if e = 's' then .ok (Regex.cls false [.spaceClass], rest, g)
        else if e = 'S' then .ok (Regex.cls true [.spaceClass], rest, g)
        else if e = 'd' then .ok (Regex.cls false [.digitClass], rest, g)
        else if e = 'D' then .ok (Regex.cls true [.digitClass], rest, g)
        else if e = 'w' then .ok (Regex.cls false [.wordClass], rest, g)
        else if e = 'W' then .ok (Regex.cls true [.wordClass], rest, g)
        else if e.isAlphanum then .error "bad escape"
        else .ok (Regex.char e, rest, g)
      | '\\' :: [] => .error "bad escape at end of pattern"
      | '.' :: rest => .ok (Regex.cls true [.single '\n'], rest, g)
      | '*' :: _ => .error "nothing to repeat"
      | '+' :: _ => .error "nothing to repeat"
      | '?' :: _ => .error "nothing to repeat"
      | '^' :: _ => .error "anchors are not supported in this model"
      | '$' :: _ => .error "anchors are not supported in this model"
      | c :: rest => .ok (Regex.char c, rest, g))
    match s1 with
    | '*' :: rest =>
      let (lq, rest2) :=
        match rest with
        | '?' :: r2 => (true, r2)
        | _ => (false, rest)
      (checkNoRepeat rest2).bind (fun _ => .ok (Regex.star lq r1, rest2, g1))
    | '+' :: rest =>
      let (lq, rest2) :=
        match rest with
        | '?' :: r2 => (true, r2)
        | _ => (false, rest)
      (checkNoRepeat rest2).bind (fun _ => .ok (Regex.cat r1 (Regex.star lq r1), rest2, g1))
    | '?' :: rest =>
      let (lq, rest2) :=
        match rest with
        | '?' :: r2 => (true, r2)
        | _ => (false, rest)
      (checkNoRepeat rest2).bind (fun _ => .ok (optR lq r1, rest2, g1))
    | '{' :: rest =>
      match parseBrace rest with
      | none => .ok (r1, s1, g1)
      | some (lo, hi, rest2) => do
        let r2 ← repR lo hi r1
        (checkNoRepeat rest2).bind (fun _ => .ok (r2, rest2, g1))
    | _ => .ok (r1, s1, g1)

/-- Python `re.compile(p)`: parse the whole pattern text or fail. -/
def compile (p : String) : Except String Regex := do
  let (r, rest, _) ← parseF (4 * p.length + 8) .palt p.toList 0
  match rest with
  | [] => .ok r
  | _ => .error "unbalanced parenthesis"

/-! Built-in pattern inventory (src/keigo_app.py lines 10-40). -/

def RESPECT_WORDS : List String :=
  ["なさる", "いらっしゃる", "おいでになる", "おっしゃる",
   "ご覧になる", "召し上がる", "お越しになる", "お帰りになる",
   "ご存じ(?:だ|です)", "くださる", "お休みになる"]

def HUMBLE_WORDS : List String :=
  ["いたす", "存じ(?:ます|上げる|上げております)",
   "申し(?:ます|上げる|上げております)", "拝見(?:します|いたします)",
   "伺(?:います|いました|わせて)", "差し上げ(?:ます|ました)",
   "承知(?:しました|いたしました|しております)",
   "頂(?:きます|けます)", "いただ(?:きます|けます|いております)",
   "参(?:り|ります)"]

def TAIL : String :=
  "[ー〜~ｗ笑]*[\\s　]*[。．.!！?？、,：:；;…‥」』）\\)\\]】〉》]*"

def POLITE_PATTERNS : List String :=
  ["(?:です|ます|でした|でしょう|ません|でございます|ござい(?:ます|ません))(?:か|ね|よ)?" ++ TAIL,
   "ください" ++ TAIL]

def BEAUTIFIER_PATTERNS : List String :=
  ["(?:お|ご)[一-龥ぁ-んァ-ン]{1,6}(?:いたします|します|ください|です)"]

/-- Source expression `[re.compile(p) for p in ps]` for the built-in lists, which are assumed
well-formed (the program would fail at import time otherwise). -/
def compileList (ps : List String) : List Regex :=
  ps.filterMap (fun p => (compile p).toOption)

def RESPECT_RE : List Regex := compileList RESPECT_WORDS
def HUMBLE_RE : List Regex := compileList HUMBLE_WORDS
def POLITE_RE : List Regex := compileList POLITE_PATTERNS
def BEAUTIFIER_RE : List Regex := compileList BEAUTIFIER_PATTERNS

/-- The four category rule lists (the module-level `*_RE` globals). -/
structure RuleStore where
  respect : List Regex
  humble : List Regex
  polite : List Regex
  beautifier : List Regex
deriving DecidableEq, Repr

def builtinStore : RuleStore :=
  ⟨RESPECT_RE, HUMBLE_RE, POLITE_RE, BEAUTIFIER_RE⟩

/-- A cell value of the input table.  `classify_keigo` treats anything that
is not a string as the no-data case (`isinstance(text, str)` in the
source); the other constructors model the non-string cells a spreadsheet
can hold. -/
inductive Value where
  | vStr (s : String)
  | vNat (n : Nat)
  | vBool (b : Bool)
  | vNaN
deriving DecidableEq, Repr

/-- Pandas `astype(str)` on one cell. -/
def Value.toText : Value → String
  | .vStr s => s
  | .vNat n => toString n
  | .vBool true => "True"
  | .vBool false => "False"
  | .vNaN => "nan"

/-- The record returned by `classify_keigo` (src/keigo_app.py lines 52-69). -/
structure KeigoResult where
  is_keigo : Bool
  respect_cnt : Nat
  humble_cnt : Nat
  polite_cnt : Nat
  beautifier_cnt : Nat
  respect_hits : String
  humble_hits : String
  polite_hits : String
  beautifier_hits : String
deriving DecidableEq, Repr

/-- The canonical no-data result (source lines 54-58). -/
def zeroResult : KeigoResult :=
  ⟨false, 0, 0, 0, 0, "", "", "", ""⟩

/-- Source condition `not isinstance(text, str) or not text.strip()` (line 53). -/
def isNoData : Value → Bool
  | .vStr s => pyBlank s
  | _ => true

/-- Source function `classify_keigo(text)` (lines 52-69), with the module-level rule
lists passed explicitly as the rule store. -/
def classify_keigo (R : RuleStore) (text : Value) : KeigoResult :=
  match text with
  | .vStr s =>
    if pyBlank s then zeroResult
    else
      let r_hits := _hits R.respect s
      let h_hits := _hits R.humble s
      let p_hits := _hits R.polite s
      let b_hits := _hits R.beautifier s
      { is_keigo := !r_hits.isEmpty || !h_hits.isEmpty || !p_hits.isEmpty || !b_hits.isEmpty
        respect_cnt := r_hits.length
        humble_cnt := h_hits.length
        polite_cnt := p_hits.length
        beautifier_cnt := b_hits.length
        respect_hits := String.intercalate "、" r_hits
        humble_hits := String.intercalate "、" h_hits
        polite_hits := String.intercalate "、" p_hits
        beautifier_hits := String.intercalate "、" b_hits }
  | _ => zeroResult

/-! Rule-store extension (the "追加パターンを適用" handler, source
lines 161-171). -/

inductive Category where
  | respect
  | humble
  | polite
  | beautifier
deriving DecidableEq, Repr

def getRules (R : RuleStore) : Category → List Regex
  | .respect => R.respect
  | .humble => R.humble
  | .polite => R.polite
  | .beautifier => R.beautifier

def addRule (R : RuleStore) (c : Category) (r : Regex) : RuleStore :=
  match c with
  | .respect => { R with respect := R.respect ++ [r] }
  | .humble => { R with humble := R.humble ++ [r] }
  | .polite => { R with polite := R.polite ++ [r] }
  | .beautifier => { R with beautifier := R.beautifier ++ [r] }

def catCnt (c : Category) (k : KeigoResult) : Nat :=
  match c with
  | .respect => k.respect_cnt
  | .humble => k.humble_cnt
  | .polite => k.polite_cnt
  | .beautifier => k.beautifier_cnt

/-- Split a character list at newlines (the line structure used by
`str.splitlines`; carriage returns are removed by the subsequent strip). -/
def splitNl : List Char → List (List Char)
  | [] => [[]]
  | c :: rest =>
    match splitNl rest with
    | [] => [[c]]
    | g :: gs => if c = '\n' then [] :: g :: gs else (c :: g) :: gs

/-- Source helper `_lines(s)` (lines 162-163): split into lines, strip each, drop
blank lines. -/
def pyLines (s : String) : List String :=
  ((splitNl s.toList).map (fun l => pyStrip (String.mk l))).filter (fun l => l ≠ "")

/-- Source expression `[re.compile(p) for p in lines]`: compile every line in order, failing
on the first invalid one with the whole list unbuilt (the comprehension is
fully evaluated before `extend` runs). -/
def compileAllLines : List String → Except String (List Regex)
  | [] => .ok []
  | l :: ls =>
    match compile l with
    | .error e => .error e
    | .ok r =>
      match compileAllLines ls with
      | .error e => .error e
      | .ok rs => .ok (r :: rs)

/-- One category's `X_RE.extend([re.compile(p) for p in _lines(text)])`. -/
def extendCategory (rules : List Regex) (text : String) : Except String (List Regex) :=
  (compileAllLines (pyLines text)).map (fun rs => rules ++ rs)

/-- The rule list that is live after the call: the extended list on
success, the untouched original on a compile error. -/
def categoryAfter (rules : List Regex) (text : String) : List Regex :=
  match extendCategory rules text with
  | .ok rs => rs
  | .error _ => rules

/-- The whole button handler (source lines 164-171): the four categories
are extended in order inside one `try`; a failure aborts the rest but does
not roll back categories already extended (the documented non-transactional
batch semantics).  Returns the store after the press and the error message,
if any. -/
def applyExtraPatterns (R : RuleStore) (er eh ep eb : String) :
    RuleStore × Option String :=
  match extendCategory R.respect er with
  | .error e => (R, some e)
  | .ok rs =>
    let R1 := { R with respect := rs }
    match extendCategory R1.humble eh with
    | .error e => (R1, some e)
    | .ok hs =>
      let R2 := { R1 with humble := hs }
      match extendCategory R2.polite ep with
      | .error e => (R2, some e)
      | .ok ps =>
        let R3 := { R2 with polite := ps }
        match extendCategory R3.beautifier eb with
        | .error e => (R3, some e)
        | .ok bs => ({ R3 with beautifier := bs }, none)

/-! Table layer (source lines 119-132). -/

/-- A table: named columns and positional rows (a `DataFrame`). -/
structure Table where
  cols : List String
  rows : List (List Value)
deriving DecidableEq, Repr

/-- Index of a column name (first occurrence). -/
def colIdx (cols : List String) (c : String) : Option Nat :=
  match cols with
  | [] => none
  | a :: rest => if a = c then some 0 else (colIdx rest c).map (fun i => i + 1)

/-- The cell of `r` in column `c`. -/
def cellAt (cols : List String) (r : List Value) (c : String) : Value :=
  match colIdx cols c with
  | some i => r.getD i .vNaN
  | none => .vNaN

inductive TableError where
  | columnNotFound
  | nonBooleanMask
deriving DecidableEq, Repr

/-- Row restriction of line 123, `work_df[work_df[filter_col].astype(str) ==
filter_val]`, viewed as a plain table (row labels dropped): the
"pre-filtered table" of the filter-then-classify claim; `none` models the
lookup failure on a missing column.  Note this is the restriction itself —
the program's filtered pass additionally carries pandas row labels through
`pd.concat`, which `classifyTable` models below. -/
def filterRows (t : Table) (fc fv : String) : Option Table :=
  match colIdx t.cols fc with
  | none => none
  | some _ => some ⟨t.cols, t.rows.filter (fun r => (cellAt t.cols r fc).toText = fv)⟩

/-- Column names appended by `.apply(classify_keigo).apply(pd.Series)`, in
the dict-key order of the result record. -/
def resultCols : List String :=
  ["is_keigo", "respect_cnt", "humble_cnt", "polite_cnt", "beautifier_cnt",
   "respect_hits", "humble_hits", "polite_hits", "beautifier_hits"]

/-- The classification fields of one row, flattened to cells in
`resultCols` order. -/
def resultRow (k : KeigoResult) : List Value :=
  [.vBool k.is_keigo, .vNat k.respect_cnt, .vNat k.humble_cnt,
   .vNat k.polite_cnt, .vNat k.beautifier_cnt, .vStr k.respect_hits,
   .vStr k.humble_hits, .vStr k.polite_hits, .vStr k.beautifier_hits]

/-- The boolean mask `out_all["is_keigo"]` applied to one row. -/
def keigoFlag (cols : List String) (r : List Value) : Bool :=
  match colIdx cols "is_keigo" with
  | some i =>
    match r.getD i .vNaN with
    | .vBool b => b
    | _ => false
  | none => false

/-- Lines 130-132: classify every row, concatenate the result columns onto
the original row data, and filter the keigo-only view off the all view. -/
def classifyRows (R : RuleStore) (t : Table) (tc : String) : Table × Table :=
  let allRows := t.rows.map (fun r => r ++ resultRow (classify_keigo R (cellAt t.cols r tc)))
  let outCols := t.cols ++ resultCols
  (⟨outCols, allRows⟩, ⟨outCols, allRows.filter (keigoFlag outCols)⟩)

/-- Pandas row lookup by label in an axis-1 concat: the frame's row when
the label is present, a NaN-filled row of the frame's width otherwise. -/
def rowFor (rows : List (Nat × List Value)) (width : Nat) (i : Nat) : List Value :=
  match rows.find? (fun p => p.1 = i) with
  | some p => p.2
  | none => List.replicate width Value.vNaN

/-- Pandas `pd.concat([left, right], axis=1)` on row-labeled frames whose
indexes are (as everywhere in this program) strictly ascending subsets of
`range n`: rows are aligned on the union of the labels in ascending order,
and a label missing from one frame yields NaN cells for that frame's
columns.  `nl` and `nr` are the two frames' widths. -/
def concatOuter (left right : List (Nat × List Value)) (nl nr n : Nat) :
    List (List Value) :=
  ((List.range n).filter
      (fun i => left.any (fun p => p.1 = i) || right.any (fun p => p.1 = i))).map
    (fun i => rowFor left nl i ++ rowFor right nr i)

/-- The boolean mask `out_all["is_keigo"]` used on line 132: `none` models
the pandas error raised when masking with a column that contains NaN
(non-boolean values). -/
def boolMask (cols : List String) (rows : List (List Value)) : Option (List Bool) :=
  match colIdx cols "is_keigo" with
  | none => none
  | some i =>
    if rows.all (fun r =>
        match r.getD i Value.vNaN with
        | .vBool _ => true
        | _ => false) then
      some (rows.map (fun r =>
        match r.getD i Value.vNaN with
        | .vBool b => b
        | _ => false))
    else none

/-- The classification pass of the run button (source lines 119-132).
Without a filter, `work_df` keeps its fresh `RangeIndex`, the concat aligns
positionally, and the pass is `classifyRows`.  With a filter, the source
keeps the original row labels on `work_df` (line 123), the classification
frame inherits them (line 130), but only `work_df` is
`reset_index(drop=True)` before `pd.concat(..., axis=1)` (line 131) — so
the two frames are outer-joined on differing labels whenever the filter
keeps a non-prefix set of rows, NaN-padding both sides, and the keigo mask
of line 132 then hits NaN and fails. -/
def classifyTable (R : RuleStore) (t : Table) (tc : String)
    (filt : Option (String × String)) : Except TableError (Table × Table) :=
  match filt with
  | none =>
    if t.cols.contains tc then .ok (classifyRows R t tc)
    else .error .columnNotFound
  | some (fc, fv) =>
    if t.cols.contains fc then
      if t.cols.contains tc then
        let work := t.rows.enum.filter (fun p => (cellAt t.cols p.2 fc).toText = fv)
        let results :=
          work.map (fun p => (p.1, resultRow (classify_keigo R (cellAt t.cols p.2 tc))))
        let leftRows := (work.map Prod.snd).enum
        let allRows :=
          concatOuter leftRows results t.cols.length resultCols.length t.rows.length
        let outCols := t.cols ++ resultCols
        match boolMask outCols allRows with
        | none => .error .nonBooleanMask
        | some mask =>
          .ok (⟨outCols, allRows⟩,
               ⟨outCols, ((allRows.zip mask).filter (fun p => p.2)).map (fun p => p.1)⟩)
      else .error .columnNotFound
    else .error .columnNotFound

/-! Helper lemmas shared by the claim theorems. -/

lemma hits_append (l1 l2 : List Regex) (s : String) :
    _hits (l1 ++ l2) s = _hits l1 s ++ _hits l2 s := by
  simp [_hits]

lemma verdict_iff (a b c d : List String) :
    (!a.isEmpty || !b.isEmpty || !c.isEmpty || !d.isEmpty) = true ↔
      0 < a.length ∨ 0 < b.length ∨ 0 < c.length ∨ 0 < d.length := by
  cases a <;> cases b <;> cases c <;> cases d <;> simp

lemma classify_keigo_of_noData (R : RuleStore) (v : Value) (h : isNoData v = true) :
    classify_keigo R v = zeroResult := by
  cases v with
  | vStr s =>
    simp only [isNoData] at h
    simp [classify_keigo, h]
  | vNat n => rfl
  | vBool b => rfl
  | vNaN => rfl

/-- C1: For every rule store and input, the boolean verdict equals the
disjunction of the four per-category hit counts being positive. -/
theorem claim1_is_keigo_iff_some_count_pos (R : RuleStore) (v : Value) :
    (classify_keigo R v).is_keigo = true ↔
      0 < (classify_keigo R v).respect_cnt ∨ 0 < (classify_keigo R v).humble_cnt ∨
      0 < (classify_keigo R v).polite_cnt ∨ 0 < (classify_keigo R v).beautifier_cnt := by
  cases v with
  | vStr s =>
    by_cases hb : pyBlank s
    · simp [classify_keigo, hb, zeroResult]
    · simp only [classify_keigo, hb, Bool.false_eq_true, if_false]
      exact verdict_iff _ _ _ _
  | vNat n => simp [classify_keigo, zeroResult]
  | vBool b => simp [classify_keigo, zeroResult]
  | vNaN => simp [classify_keigo, zeroResult]

/-- C2: Empty, whitespace-only, or non-text input yields the canonical
no-data result (verdict false, all counts zero, all hit strings empty) and
no error: `classify_keigo` is total and returns `zeroResult` exactly. -/
theorem claim2_no_data_input_yields_zero_result (R : RuleStore) (v : Value)
    (h : isNoData v = true) : classify_keigo R v = zeroResult :=
  classify_keigo_of_noData R v h

theorem claim2_witness :
    isNoData (Value.vStr " 　 ") = true ∧
      classify_keigo builtinStore (Value.vStr " 　 ") = zeroResult :=
  ⟨by decide, claim2_no_data_input_yields_zero_result builtinStore (Value.vStr " 　 ") (by decide)⟩

/-- C4: Appending one new valid pattern (one that compiles) to a
category is monotone: for every fixed text, that category's hit count under
the extended store is at least its hit count under the original store. -/
theorem claim4_add_pattern_monotone (R : RuleStore) (c : Category)
    (ptext : String) (r : Regex) (s : String) (hvalid : compile ptext = .ok r) :
    catCnt c (classify_keigo R (.vStr s)) ≤
      catCnt c (classify_keigo (addRule R c r) (.vStr s)) := by
  by_cases hb : pyBlank s
  · simp [classify_keigo, hb]
  · cases c <;>
      simp [classify_keigo, hb, addRule, catCnt, hits_append]

theorem claim4_witness :
    compile "あ" = .ok (Regex.cat (.char 'あ') .eps) ∧
      catCnt .polite (classify_keigo ⟨[], [], [], []⟩ (.vStr "あです")) ≤
        catCnt .polite (classify_keigo
          (addRule ⟨[], [], [], []⟩ .polite (Regex.cat (.char 'あ') .eps)) (.vStr "あです")) :=
  ⟨by rfl,
   claim4_add_pattern_monotone ⟨[], [], [], []⟩ .polite "あ"
     (Regex.cat (.char 'あ') .eps) "あです" (by rfl)⟩

deriving instance DecidableEq for Except

/-- C7 code bug: the claim (and the spec's visible intent — the
`reset_index(drop=True)` on line 131 exists to realign) says classifying
with the pre-filter `(spk, B)` equals classifying the pre-filtered table.
The code violates it: only `work_df` is reset while the classification
frame keeps the original labels, so on a two-row table whose filter keeps
only the second row, `pd.concat` outer-joins label set \x7b0\x7d against
\x7b1\x7d, building a two-row NaN-misaligned all view (third conjunct:
the kept data row carries NaN classification cells and vice versa), and the
keigo mask of line 132 then contains NaN and errors — instead of the
claimed one-row aligned result (fourth conjunct), from which it differs
(last conjunct). -/
theorem claim7_filter_misalignment_codebug :
    filterRows ⟨["spk", "t"], [[Value.vStr "A", Value.vStr "x"], [Value.vStr "B", Value.vStr "です"]]⟩
        "spk" "B" =
      some ⟨["spk", "t"], [[Value.vStr "B", Value.vStr "です"]]⟩ ∧
    classifyTable builtinStore
        ⟨["spk", "t"], [[Value.vStr "A", Value.vStr "x"], [Value.vStr "B", Value.vStr "です"]]⟩
        "t" (some ("spk", "B")) = .error .nonBooleanMask ∧
    concatOuter [(0, [Value.vStr "B", Value.vStr "です"])]
        [(1, resultRow (classify_keigo builtinStore (Value.vStr "です")))] 2 9 2 =
      [[Value.vStr "B", Value.vStr "です"] ++ List.replicate 9 Value.vNaN,
       [Value.vNaN, Value.vNaN] ++ resultRow (classify_keigo builtinStore (Value.vStr "です"))] ∧
    classifyTable builtinStore ⟨["spk", "t"], [[Value.vStr "B", Value.vStr "です"]]⟩ "t" none =
      .ok (⟨["spk", "t"] ++ resultCols,
            [[Value.vStr "B", Value.vStr "です"] ++
              resultRow (classify_keigo builtinStore (Value.vStr "です"))]⟩,
           ⟨["spk", "t"] ++ resultCols,
            [[Value.vStr "B", Value.vStr "です"] ++
              resultRow (classify_keigo builtinStore (Value.vStr "です"))]⟩) ∧
    classifyTable builtinStore
        ⟨["spk", "t"], [[Value.vStr "A", Value.vStr "x"], [Value.vStr "B", Value.vStr "です"]]⟩
        "t" (some ("spk", "B")) ≠
      classifyTable builtinStore ⟨["spk", "t"], [[Value.vStr "B", Value.vStr "です"]]⟩ "t" none := by
  decide

lemma compileAllLines_error_of_mem {l e : String} (ls : List String)
    (hl : l ∈ ls) (he : compile l = .error e) :
    ∃ msg, compileAllLines ls = .error msg := by
  induction ls with
  | nil => cases hl
  | cons a as ih =>
    cases hl with
    | head => exact ⟨e, by simp [compileAllLines, he]⟩
    | tail _ hmem =>
      cases hca : compile a with
      | error e2 => exact ⟨e2, by simp [compileAllLines, hca]⟩
      | ok r =>
        obtain ⟨m, hm⟩ := ih hmem
        exact ⟨m, by simp [compileAllLines, hca, hm]⟩

/-- C5: If any submitted line of pattern text fails to compile, the
category's extension call fails with the compile error and the category's
rule list is left exactly as it was (atomic per call). -/
theorem claim5_invalid_pattern_atomic (rules : List Regex) (text l e : String)
    (hl : l ∈ pyLines text) (he : compile l = .error e) :
    (∃ msg, extendCategory rules text = .error msg) ∧
      categoryAfter rules text = rules := by
  obtain ⟨m, hm⟩ := compileAllLines_error_of_mem (pyLines text) hl he
  refine ⟨⟨m, ?_⟩, ?_⟩
  · simp [extendCategory, hm, Except.map]
  · simp [categoryAfter, extendCategory, hm, Except.map]

theorem claim5_witness :
    "(" ∈ pyLines "(" ∧ compile "(" = .error "missing ), unterminated subpattern" ∧
      (∃ msg, extendCategory POLITE_RE "(" = .error msg) ∧
      categoryAfter POLITE_RE "(" = POLITE_RE :=
  ⟨by decide, by rfl,
   claim5_invalid_pattern_atomic POLITE_RE "(" "("
     "missing ), unterminated subpattern" (by decide) (by rfl)⟩

/-- C6: For a rule whose pattern defines at least two capture groups,
the hit reported by `_hits` for each occurrence is the concatenation of all
captured groups of that occurrence (in group order, unmatched groups
contributing the empty string), not the full match span. -/
theorem claim6_multi_group_hit_is_group_concat (r : Regex) (s : String)
    (h : 2 ≤ numGroups r) :
    _hits [r] s =
      (findallRaw r s).map (fun m =>
        String.join ((List.range (numGroups r)).map (fun i => capGet m.2 (i + 1)))) := by
  have h0 : ¬(numGroups r = 0) := by omega
  have h1 : ¬(numGroups r = 1) := by omega
  simp [_hits, re_findall, h0, h1, joinItem]

theorem claim6_witness :
    2 ≤ numGroups (Regex.cat (.group 1 (.char 'a')) (.group 2 (.char 'b'))) ∧
      _hits [Regex.cat (.group 1 (.char 'a')) (.group 2 (.char 'b'))] "ab" =
        (findallRaw (Regex.cat (.group 1 (.char 'a')) (.group 2 (.char 'b'))) "ab").map
          (fun m =>
            String.join
              ((List.range (numGroups (Regex.cat (.group 1 (.char 'a')) (.group 2 (.char 'b'))))).map
                (fun i => capGet m.2 (i + 1)))) :=
  ⟨by decide,
   claim6_multi_group_hit_is_group_concat
     (Regex.cat (.group 1 (.char 'a')) (.group 2 (.char 'b'))) "ab" (by decide)⟩

/-- C10: For a rule with exactly one capture group the reported hit is
that group's captured content alone; for a rule with no capture groups the
reported hit is the full matched span. -/
theorem claim10_single_group_hit_is_group_content (r1 r0 : Regex) (s : String)
    (h1 : numGroups r1 = 1) (h0 : numGroups r0 = 0) :
    _hits [r1] s = (findallRaw r1 s).map (fun m => capGet m.2 1) ∧
      _hits [r0] s = (findallRaw r0 s).map (fun m => m.1) := by
  constructor
  · simp [_hits, re_findall, h1, joinItem]
  · simp [_hits, re_findall, h0, joinItem]

theorem claim10_witness :
    numGroups (Regex.cat (.group 1 (.char 'a')) (.char 'b')) = 1 ∧
      numGroups (Regex.cat (.char 'a') (.char 'b')) = 0 ∧
      _hits [Regex.cat (.group 1 (.char 'a')) (.char 'b')] "ab" =
        (findallRaw (Regex.cat (.group 1 (.char 'a')) (.char 'b')) "ab").map
          (fun m => capGet m.2 1) ∧
      _hits [Regex.cat (.char 'a') (.char 'b')] "ab" =
        (findallRaw (Regex.cat (.char 'a') (.char 'b')) "ab").map (fun m => m.1) :=
  ⟨by decide, by decide,
   claim10_single_group_hit_is_group_content
     (Regex.cat (.group 1 (.char 'a')) (.char 'b'))
     (Regex.cat (.char 'a') (.char 'b')) "ab" (by decide) (by decide)⟩

/-- C8 counterexample: The claim "for every rule list, the Matcher
applied to an empty or whitespace-only text yields an empty hit sequence"
is false of `_hits` as written: `_hits` has no blank-text short-circuit, so
a rule matching whitespace (here the compiled pattern `\s`) reports a hit
on a whitespace-only text. -/
theorem claim8_counterexample_matcher_hits_on_blank :
    pyBlank " " = true ∧ _hits (compileList ["\\s"]) " " = [" "] ∧
      ([" "] : List String) ≠ [] := by
  refine ⟨by decide, by decide, by decide⟩

/-- C8 amended: The blank-text short-circuit lives in the Classifier,
not the Matcher: for empty/whitespace-only (or non-text) input,
`classify_keigo` returns the canonical zero result without consulting any
rule — the result is identical under every rule store. -/
theorem claim8_blank_short_circuit_in_classifier (R R2 : RuleStore) (v : Value)
    (h : isNoData v = true) :
    classify_keigo R v = zeroResult ∧ classify_keigo R v = classify_keigo R2 v := by
  have hr := classify_keigo_of_noData R v h
  have hr2 := classify_keigo_of_noData R2 v h
  exact ⟨hr, hr.trans hr2.symm⟩

theorem claim8_witness :
    isNoData (Value.vStr "") = true ∧
      classify_keigo builtinStore (Value.vStr "") = zeroResult ∧
      classify_keigo builtinStore (Value.vStr "") =
        classify_keigo ⟨[], [], [], []⟩ (Value.vStr "") :=
  ⟨by decide,
   (claim8_blank_short_circuit_in_classifier builtinStore ⟨[], [], [], []⟩
     (Value.vStr "") (by decide)).1,
   (claim8_blank_short_circuit_in_classifier builtinStore ⟨[], [], [], []⟩
     (Value.vStr "") (by decide)).2⟩

/-- C9: With the built-in rule set, the text これはペンです。 is
classified with exactly one polite hit — the です-family pattern matching
the ending together with the closing punctuation (hit text です。) — zero
hits in the other three categories, and verdict true. -/
theorem claim9_concrete_polite_sentence :
    classify_keigo builtinStore (.vStr "これはペンです。") =
      ⟨true, 0, 0, 1, 0, "", "", "です。", ""⟩ := by
  decide

lemma colIdx_append_of_not_mem (l1 l2 : List String) (c : String) (h : c ∉ l1) :
    colIdx (l1 ++ l2) c = (colIdx l2 c).map (fun i => i + l1.length) := by
  induction l1 with
  | nil =>
    simp only [List.nil_append, List.length_nil]
    cases colIdx l2 c <;> simp
  | cons a as ih =>
    have hac : ¬(a = c) := fun hh => h (by simp [hh])
    have hmem : c ∉ as := fun hm => h (by simp [hm])
    cases hcl : colIdx l2 c with
    | none => simp [colIdx, hac, ih hmem, hcl]
    | some i =>
      simp [colIdx, hac, ih hmem, hcl]
      omega

lemma keigoFlag_appended (cols : List String) (r : List Value) (k : KeigoResult)
    (h2 : "is_keigo" ∉ cols) (hlen : r.length = cols.length) :
    keigoFlag (cols ++ resultCols) (r ++ resultRow k) = k.is_keigo := by
  have hidx : colIdx (cols ++ resultCols) "is_keigo" = some cols.length := by
    rw [colIdx_append_of_not_mem _ _ _ h2]
    simp [colIdx, resultCols]
  have hcell : (r ++ resultRow k).getD cols.length .vNaN = Value.vBool k.is_keigo := by
    rw [← hlen]
    rw [List.getD_append_right r (resultRow k) Value.vNaN r.length (Nat.le_refl r.length)]
    simp [resultRow]
  simp only [keigoFlag, hidx]
  rw [hcell]

/-- C3: `classifyTable` without a filter produces exactly one output row
per input row, in input order (row count preserved), each being the
original row with the classification fields appended, with the original
columns kept in front of the appended result columns; and the keigo-only
view is exactly the filter of the all view by its `is_keigo` flag, which
for each row equals the classification verdict of that row's text cell. -/
theorem claim3_classifyTable_shape_and_keigo_view (R : RuleStore) (t : Table)
    (tc : String) (h1 : t.cols.contains tc = true) (h2 : "is_keigo" ∉ t.cols)
    (h3 : ∀ r ∈ t.rows, r.length = t.cols.length) :
    ∃ a k : Table,
      classifyTable R t tc none = .ok (a, k) ∧
      a.cols = t.cols ++ resultCols ∧
      a.rows.length = t.rows.length ∧
      a.rows = t.rows.map (fun r => r ++ resultRow (classify_keigo R (cellAt t.cols r tc))) ∧
      k.cols = a.cols ∧
      k.rows = a.rows.filter (fun r => keigoFlag a.cols r) ∧
      (∀ r ∈ t.rows,
        keigoFlag a.cols (r ++ resultRow (classify_keigo R (cellAt t.cols r tc))) =
          (classify_keigo R (cellAt t.cols r tc)).is_keigo) := by
  refine ⟨(classifyRows R t tc).1, (classifyRows R t tc).2, ?_, rfl, ?_, rfl, rfl, rfl, ?_⟩
  · have h1m : tc ∈ t.cols := by simpa using h1
    simp [classifyTable, h1m]
  · simp [classifyRows]
  · intro r hr
    exact keigoFlag_appended t.cols r _ h2 (h3 r hr)

theorem claim3_witness :
    ∃ a k : Table,
      classifyTable ⟨[], [], [], []⟩ ⟨["t"], [[Value.vStr "x"], [Value.vNaN]]⟩ "t" none =
        .ok (a, k) ∧
      a.cols = ["t"] ++ resultCols ∧
      a.rows.length = ([[Value.vStr "x"], [Value.vNaN]] : List (List Value)).length ∧
      a.rows = ([[Value.vStr "x"], [Value.vNaN]] : List (List Value)).map
        (fun r => r ++ resultRow (classify_keigo ⟨[], [], [], []⟩ (cellAt ["t"] r "t"))) ∧
      k.cols = a.cols ∧
      k.rows = a.rows.filter (fun r => keigoFlag a.cols r) ∧
      (∀ r ∈ ([[Value.vStr "x"], [Value.vNaN]] : List (List Value)),
        keigoFlag a.cols (r ++ resultRow (classify_keigo ⟨[], [], [], []⟩ (cellAt ["t"] r "t"))) =
          (classify_keigo ⟨[], [], [], []⟩ (cellAt ["t"] r "t")).is_keigo) :=
  claim3_classifyTable_shape_and_keigo_view ⟨[], [], [], []⟩
    ⟨["t"], [[Value.vStr "x"], [Value.vNaN]]⟩ "t" (by decide) (by decide) (by decide)

end KeigoApp

